import Mathlib

/-!
Shallow embedding of the reminder-bot core (`bot/database.py` and
`bot/services/reminders.py`).

Modelling conventions:
* A Python `datetime` is a wall-clock timestamp (integer seconds) together
  with an optional UTC offset in seconds: `none` models a naive datetime
  (`tzinfo is None`), `some o` an aware one whose `utcoffset()` is `o`
  seconds; `timezone.utc` is offset `0`.
* The TEXT columns `start_time` / `remind_at` hold `isoformat()` of
  UTC-normalised aware datetimes.  All stored strings share one fixed format
  with a `+00:00` suffix, so SQL lexicographic comparison on them coincides
  with chronological comparison; they are therefore modelled directly as the
  UTC instant (an `Int`).
* SQLite assigns `AUTOINCREMENT` ids `1, 2, …`; rows of a plain
  `SELECT` without `ORDER BY` over the `events` table come back in rowid
  (insertion) order, which the model keeps as the order of the `events` list.
* `datetime.now(timezone.utc)` is passed in explicitly as a parameter
  (`now` / `nowTs`) wherever the source calls it.
* Fallible operations return `Except`: a `ValueError` in the source is
  `DBError.invalidArgument` with the source's message.  An error result means
  the exception is raised before any write, so the caller keeps the old state.
-/

namespace Bot

/-- Python `datetime`: wall-clock seconds plus an optional UTC offset in
seconds (`none` = naive, `some o` = aware with `utcoffset() = o`). -/
structure PyDateTime where
  wall : Int
  off : Option Int
deriving DecidableEq, Repr

/-- Python `dt.astimezone(timezone.utc)` on an aware datetime with offset `o`:
the UTC wall clock is `wall - o` and the offset becomes `0`.  The embedded
code only applies it after checking `tzinfo is not None`, so the naive branch
is never reached; it is given the identity for totality. -/
def PyDateTime.astimezoneUtc (dt : PyDateTime) : PyDateTime :=
  match dt.off with
  | some o => ⟨dt.wall - o, some 0⟩
  | none => dt

/-- The `Event` dataclass of `bot/database.py`. -/
structure Event where
  id : Nat
  user_id : Nat
  title : String
  start_time : PyDateTime
  duration_minutes : Int
  remind_before : Int
  remind_at : PyDateTime
  reminded : Bool
  telegram_id : Option Int
deriving DecidableEq, Repr

/-- The `end_time` property: `start_time + timedelta(minutes=duration_minutes)`
(addition keeps the `tzinfo`). -/
def Event.end_time (e : Event) : PyDateTime :=
  ⟨e.start_time.wall + 60 * e.duration_minutes, e.start_time.off⟩

/-- A row of the `users` table. -/
structure UserRow where
  id : Nat
  telegram_id : Int
  timezone : String
  reminder_default : Int
  created_at : Int
deriving DecidableEq, Repr

/-- A row of the `events` table.  `start_time` and `remind_at` are the stored
ISO-8601 UTC strings, modelled as the UTC instant they denote (see the header
comment); `reminded` is the 0/1 INTEGER column as a `Bool`. -/
structure EventRow where
  id : Nat
  user_id : Nat
  title : String
  start_time : Int
  duration_minutes : Int
  remind_before : Int
  remind_at : Int
  reminded : Bool
  created_at : Int
deriving DecidableEq, Repr

/-- The persistent store: the two tables plus the `AUTOINCREMENT` counters. -/
structure DBState where
  users : List UserRow
  events : List EventRow
  nextUserId : Nat
  nextEventId : Nat
deriving DecidableEq, Repr

/-- A fresh store created by `init_models`: both tables empty, ids start at 1. -/
def initState : DBState := ⟨[], [], 1, 1⟩

/-- Errors raised by the store (`ValueError` with the source's message). -/
inductive DBError where
  | invalidArgument (msg : String)
deriving DecidableEq, Repr

/-- SELECT a user row by the UNIQUE `telegram_id`. -/
def DBState.findUserByTg (s : DBState) (tg : Int) : Option UserRow :=
  s.users.find? (fun u => u.telegram_id == tg)

/-- SELECT a user row by primary key. -/
def DBState.findUserById (s : DBState) (uid : Nat) : Option UserRow :=
  s.users.find? (fun u => u.id == uid)

/-- The `JOIN users u ON u.id = e.user_id` used by the event SELECTs: the
owning user row of an event row, when present. -/
def DBState.owner (s : DBState) (e : EventRow) : Option UserRow :=
  s.findUserById e.user_id

/-- SELECT an event row by primary key. -/
def DBState.findEvent (s : DBState) (eid : Nat) : Option EventRow :=
  s.events.find? (fun e => e.id == eid)

/-- `Database.ensure_user`: `INSERT OR IGNORE` keyed on the UNIQUE
`telegram_id` (new rows get the schema defaults `timezone = 'UTC'`,
`reminder_default = 15`), then SELECT the id.  `now` stands for the
`datetime.now(timezone.utc)` used for `created_at`. -/
def ensure_user (tg : Int) (now : Int) (s : DBState) : Nat × DBState :=
  match s.findUserByTg tg with
  | some u => (u.id, s)
  | none =>
    let u : UserRow := ⟨s.nextUserId, tg, "UTC", 15, now⟩
    (u.id, { s with users := s.users ++ [u], nextUserId := s.nextUserId + 1 })

/-- `Database.get_user`. -/
def get_user (tg : Int) (s : DBState) : Option UserRow :=
  s.findUserByTg tg

/-- `Database.update_user`: partial UPDATE of the supplied fields on every row
with this `telegram_id`; returns without any write when no field is given. -/
def update_user (tg : Int) (tzName : Option String) (reminderDefault : Option Int)
    (s : DBState) : DBState :=
  if tzName = none ∧ reminderDefault = none then s
  else
    { s with
      users := s.users.map (fun u =>
        if u.telegram_id == tg then
          { u with
            timezone := tzName.getD u.timezone,
            reminder_default := reminderDefault.getD u.reminder_default }
        else u) }

/-- `Database._row_to_event`:
`datetime.fromisoformat(stored).replace(tzinfo=timezone.utc)` re-reads the
stored UTC instant and forces the UTC offset, for both timestamps.  `tg` is
the `u.telegram_id` column selected by the JOIN queries. -/
def rowToEvent (e : EventRow) (tg : Option Int) : Event :=
  ⟨e.id, e.user_id, e.title, ⟨e.start_time, some 0⟩, e.duration_minutes,
    e.remind_before, ⟨e.remind_at, some 0⟩, e.reminded, tg⟩

/-- `Database.add_event`: reject a naive `start_time` before touching storage,
normalise to UTC, compute `remind_at = start_time - timedelta(minutes=remind_before)`,
ensure the user, then INSERT (the `reminded` column takes its DEFAULT 0) and
return `lastrowid`. -/
def add_event (tg : Int) (title : String) (start_time : PyDateTime)
    (duration_minutes remind_before : Int) (now : Int) (s : DBState) :
    Except DBError (Nat × DBState) :=
  match start_time.off with
  | none => .error (.invalidArgument "start_time must be timezone-aware")
  | some _ =>
    let st := start_time.astimezoneUtc
    let remind_at := st.wall - 60 * remind_before
    let p := ensure_user tg now s
    let s1 := p.2
    let e : EventRow :=
      ⟨s1.nextEventId, p.1, title, st.wall, duration_minutes, remind_before,
        remind_at, false, now⟩
    .ok (e.id, { s1 with events := s1.events ++ [e], nextEventId := s1.nextEventId + 1 })

/-- The WHERE clause of `list_events`: owned by `tg`, and matching the
optional `reminded` filter. -/
def listEventsPred (s : DBState) (tg : Int) (reminded : Option Bool)
    (e : EventRow) : Bool :=
  match s.owner e with
  | some u =>
    u.telegram_id == tg &&
      (match reminded with
       | some r => e.reminded == r
       | none => true)
  | none => false

/-- `Database.list_events`: JOIN-filtered rows of one user, `ORDER BY
e.start_time ASC`. -/
def list_events (tg : Int) (reminded : Option Bool) (s : DBState) : List Event :=
  ((s.events.filter (listEventsPred s tg reminded)).mergeSort
      (fun a b => a.start_time ≤ b.start_time)).map
    (fun e => rowToEvent e (some tg))

/-- `Database.get_next_event`: the user's earliest not-reminded event with
`start_time ≥ now` (`ORDER BY e.start_time ASC LIMIT 1`). -/
def get_next_event (tg : Int) (now : Int) (s : DBState) : Option Event :=
  (((s.events.filter (fun e =>
        match s.owner e with
        | some u => u.telegram_id == tg && e.reminded == false && now ≤ e.start_time
        | none => false)).mergeSort
      (fun a b => a.start_time ≤ b.start_time)).head?).map
    (fun e => rowToEvent e (some tg))

/-- `Database.get_event`: ownership-scoped lookup by event id. -/
def get_event (tg : Int) (eid : Nat) (s : DBState) : Option Event :=
  (s.events.find? (fun e =>
      match s.owner e with
      | some u => u.telegram_id == tg && e.id == eid
      | none => false)).map
    (fun e => rowToEvent e (some tg))

/-- `Database.delete_event`: `DELETE FROM events WHERE id = (SELECT e.id …
WHERE u.telegram_id = ? AND e.id = ?)`.  When the ownership-scoped subquery
finds no row the DELETE matches nothing (silent no-op). -/
def delete_event (tg : Int) (eid : Nat) (s : DBState) : DBState :=
  match s.events.find? (fun e =>
      match s.owner e with
      | some u => u.telegram_id == tg && e.id == eid
      | none => false) with
  | none => s
  | some e0 => { s with events := s.events.filter (fun e => e.id != e0.id) }

/-- `Database.get_due_reminders`: reject a naive `now` before touching
storage, then return every joined event row with `reminded = 0` and
`remind_at ≤ now` (normalised to UTC), across all users.  The query has no
ORDER BY, so rows come back in table (insertion) order. -/
def get_due_reminders (now : PyDateTime) (s : DBState) :
    Except DBError (List Event) :=
  match now.off with
  | none => .error (.invalidArgument "now must be timezone-aware")
  | some _ =>
    let nowUtc := now.astimezoneUtc.wall
    .ok (s.events.filterMap (fun e =>
      match s.owner e with
      | some u =>
        if e.reminded == false && e.remind_at ≤ nowUtc then
          some (rowToEvent e (some u.telegram_id))
        else none
      | none => none))

/-- `Database.mark_reminded`: no-op on an empty id list, else
`UPDATE events SET reminded = 1 WHERE id IN (…)`. -/
def mark_reminded (ids : List Nat) (s : DBState) : DBState :=
  if ids.isEmpty then s
  else
    { s with
      events := s.events.map (fun e =>
        if e.id ∈ ids then { e with reminded := true } else e) }

/-- Errors escaping one `dispatch_due` sweep: a store error or the exception
raised by a delivery callback. -/
inductive SweepError (ε : Type) where
  | db (e : DBError)
  | delivery (x : ε)
deriving DecidableEq, Repr

/-- The delivery loop `for event in events: await self.callback(event)`:
returns the list of events on which the callback was actually invoked,
paired with the loop outcome.  The source has no per-event try/except, so
the first exception aborts the loop. -/
def runCallbacks (cb : Event → Except ε Unit) : List Event → List Event × Except ε Unit
  | [] => ([], .ok ())
  | e :: rest =>
    match cb e with
    | .error x => ([e], .error x)
    | .ok _ =>
      let p := runCallbacks cb rest
      (e :: p.1, p.2)

/-- `ReminderService.dispatch_due`.  `nowTs` stands for
`datetime.now(timezone.utc)` (always aware, offset 0).  Returns the trace of
callback invocations together with the outcome: on success the store state
after `mark_reminded` over all fetched ids; on failure the exception that
escaped the sweep — in that case `mark_reminded` is never reached. -/
def dispatch_due (cb : Event → Except ε Unit) (nowTs : Int) (s : DBState) :
    List Event × Except (SweepError ε) DBState :=
  match get_due_reminders ⟨nowTs, some 0⟩ s with
  | .error e => ([], .error (.db e))
  | .ok events =>
    if events.isEmpty then ([], .ok s)
    else
      match runCallbacks cb events with
      | (tr, .error x) => (tr, .error (.delivery x))
      | (tr, .ok _) => (tr, .ok (mark_reminded (events.map (fun e => e.id)) s))

/-- One store operation, for stating invariants over arbitrary operation
sequences. -/
inductive StoreOp where
  | ensureUser (tg : Int) (now : Int)
  | updateUser (tg : Int) (tz : Option String) (rd : Option Int)
  | addEvent (tg : Int) (title : String) (st : PyDateTime) (dur rb now : Int)
  | deleteEvent (tg : Int) (eid : Nat)
  | markReminded (ids : List Nat)

/-- Apply one store operation to the state.  A failing `add_event` raised its
`ValueError` before any write, leaving the state unchanged. -/
def applyOp (s : DBState) : StoreOp → DBState
  | .ensureUser tg now => (ensure_user tg now s).2
  | .updateUser tg tz rd => update_user tg tz rd s
  | .addEvent tg t st d rb now =>
    match add_event tg t st d rb now s with
    | .ok p => p.2
    | .error _ => s
  | .deleteEvent tg eid => delete_event tg eid s
  | .markReminded ids => mark_reminded ids s

/-- Apply a sequence of store operations in order. -/
def applyOps (s : DBState) (ops : List StoreOp) : DBState :=
  ops.foldl applyOp s

/-- Well-formedness the schema enforces: primary keys are unique and below
the `AUTOINCREMENT` counters, `telegram_id` is UNIQUE, and the
`user_id REFERENCES users(id)` foreign key holds (`PRAGMA foreign_keys = ON`). -/
structure WF (s : DBState) : Prop where
  userIdsLt : ∀ u ∈ s.users, u.id < s.nextUserId
  userIdsNodup : (s.users.map (fun u => u.id)).Nodup
  tgNodup : (s.users.map (fun u => u.telegram_id)).Nodup
  eventIdsLt : ∀ e ∈ s.events, e.id < s.nextEventId
  eventIdsNodup : (s.events.map (fun e => e.id)).Nodup
  fk : ∀ e ∈ s.events, ∃ u ∈ s.users, u.id = e.user_id

/-- An `Event` value whose two timestamps are timezone-aware with UTC offset. -/
def UtcAware (ev : Event) : Prop :=
  ev.start_time.off = some 0 ∧ ev.remind_at.off = some 0

/-! Concrete stores used to evaluate the operations on explicit inputs. -/

/-- A user with `telegram_id = 10`. -/
def user10 : UserRow := ⟨1, 10, "UTC", 15, 0⟩

/-- A user with `telegram_id = 20`. -/
def user20 : UserRow := ⟨2, 20, "UTC", 15, 0⟩

/-- An event of `user10`, id 1, `start_time` 200, `remind_at` 100. -/
def exRow1 : EventRow := ⟨1, 1, "a", 200, 30, 5, 100, false, 0⟩

/-- An event of `user10`, id 2, `start_time` 50, `remind_at` 40: inserted after
`exRow1` although it starts earlier. -/
def exRow2 : EventRow := ⟨2, 1, "b", 50, 30, 5, 40, false, 0⟩

/-- A store holding `exRow1` then `exRow2`, both not yet reminded and both due
at `now = 300`. -/
def exC1s : DBState := ⟨[user10], [exRow1, exRow2], 2, 3⟩

/-- The due list of `exC1s` at `now = 300`, in stored row order. -/
def exDue1 : List Event := [rowToEvent exRow1 (some 10), rowToEvent exRow2 (some 10)]

/-- A delivery callback that always succeeds. -/
def cbOk : Event → Except Unit Unit := fun _ => .ok ()

/-- A delivery callback that raises on the event with id 1 and succeeds on
every other event. -/
def cbFail1 : Event → Except Unit Unit :=
  fun ev => if ev.id == 1 then .error () else .ok ()

/-- The event created by `add_event` with `remind_before = 0` at
`start_time = 100`: its stored `remind_at` equals its `start_time`. -/
def exC2row : EventRow := ⟨1, 1, "t", 100, 30, 0, 100, false, 0⟩

/-- The store produced by that `add_event` call on a fresh store. -/
def exC2s : DBState := ⟨[⟨1, 10, "UTC", 15, 0⟩], [exC2row], 2, 2⟩

/-- Four events of `user10` around `now = 600`: `remind_at` one minute past
(id 1), exactly `now` (id 2), one minute ahead (id 3), and one minute past but
already reminded (id 4). -/
def exC3s : DBState :=
  ⟨[user10],
   [⟨1, 1, "p", 1000, 0, 5, 540, false, 0⟩,
    ⟨2, 1, "q", 1100, 0, 5, 600, false, 0⟩,
    ⟨3, 1, "r", 1200, 0, 5, 660, false, 0⟩,
    ⟨4, 1, "s", 1300, 0, 5, 540, true, 0⟩], 2, 5⟩

/-- An event owned by `user20`, id 1. -/
def exRowB : EventRow := ⟨1, 2, "b", 100, 0, 5, 70, false, 0⟩

/-- A store with two users where the only event belongs to `user20`. -/
def exC9s : DBState := ⟨[user10, user20], [exRowB], 3, 2⟩

/-- An already-reminded event of `user10`, id 1. -/
def exRow8 : EventRow := ⟨1, 1, "x", 100, 0, 5, 70, true, 0⟩

/-- A not-yet-reminded event of `user10`, id 2. -/
def exRow8b : EventRow := ⟨2, 1, "y", 200, 0, 5, 170, false, 0⟩

/-- A store where event 1 is already reminded. -/
def exC8s : DBState := ⟨[user10], [exRow8, exRow8b], 2, 3⟩

/-- A sample operation sequence: mark event 2, then delete it. -/
def exC8ops : List StoreOp := [.markReminded [2], .deleteEvent 10 2]

/-! Helper lemmas about list search, shared by several developments below. -/

theorem find?_append_of_left_false {α : Type} (p : α → Bool) (l₁ l₂ : List α)
    (h : ∀ x ∈ l₁, p x = false) : (l₁ ++ l₂).find? p = l₂.find? p := by
  rw [List.find?_append, List.find?_eq_none.mpr (fun x hx => by simp [h x hx])]
  rfl

theorem find?_beq_of_nodup {α β : Type} [BEq β] [LawfulBEq β] (f : α → β)
    (l : List α) (hnd : (l.map f).Nodup) (a : α) (ha : a ∈ l) :
    l.find? (fun x => f x == f a) = some a := by
  induction l with
  | nil => cases ha
  | cons b t ih =>
    rw [List.map_cons, List.nodup_cons] at hnd
    rcases List.mem_cons.1 ha with rfl | hat
    · exact List.find?_cons_of_pos _ (by simp)
    · have hb : f b ≠ f a := fun hEq => hnd.1 (hEq ▸ List.mem_map_of_mem f hat)
      rw [List.find?_cons_of_neg _ (by simp [hb])]
      exact ih hnd.2 hat

theorem findUserById_eq_self (s : DBState)
    (hnd : (s.users.map (fun u => u.id)).Nodup) (u : UserRow) (hu : u ∈ s.users) :
    s.findUserById u.id = some u := by
  have h := find?_beq_of_nodup (fun u : UserRow => u.id) s.users hnd u hu
  simpa [DBState.findUserById] using h

/-- Evaluating `get_due_reminders` at an aware instant: the naive check
passes and the result is the row-order filter of the events table. -/
theorem get_due_reminders_aware (now : PyDateTime) (o : Int) (ho : now.off = some o)
    (s : DBState) :
    get_due_reminders now s = .ok (s.events.filterMap (fun e =>
      match s.owner e with
      | some u =>
        if e.reminded == false && e.remind_at ≤ now.wall - o then
          some (rowToEvent e (some u.telegram_id))
        else none
      | none => none)) := by
  obtain ⟨w, off⟩ := now
  cases ho
  rfl

/-- C2: the claim says an event created with `remind_before = 0` is never
returned by `get_due_reminders` ("0 means no reminder").  The code computes
`remind_at = start_time` and has no special case for 0, so the event is
reported due — and the dispatcher delivers it — as soon as `now` reaches
`start_time`.  Evaluation at the failing input: `add_event` with
`remind_before = 0` and `start_time = 100` (UTC), then `get_due_reminders`
at `now = start_time`, returns the event; a sweep at that instant invokes
the delivery callback on it. -/
theorem C2_zero_remind_before_still_due :
    add_event 10 "t" ⟨100, some 0⟩ 30 0 0 initState = .ok (1, exC2s) ∧
    get_due_reminders ⟨100, some 0⟩ exC2s = .ok [rowToEvent exC2row (some 10)] ∧
    (dispatch_due cbOk 100 exC2s).1.map (fun e => e.id) = [1] :=
  ⟨rfl, rfl, rfl⟩

/-- C7: `add_event` raises `ValueError` exactly when `start_time` is naive,
and `get_due_reminders` raises `ValueError` exactly when `now` is naive; the
check precedes every storage access, so a failing `add_event` leaves the
store unchanged (in particular the user is not ensured). -/
theorem C7_invalid_argument_iff (tg : Int) (title : String) (st : PyDateTime)
    (dur rb now : Int) (s : DBState) (n : PyDateTime) :
    (add_event tg title st dur rb now s =
        .error (.invalidArgument "start_time must be timezone-aware") ↔ st.off = none) ∧
    (get_due_reminders n s =
        .error (.invalidArgument "now must be timezone-aware") ↔ n.off = none) ∧
    (st.off = none → applyOp s (.addEvent tg title st dur rb now) = s) := by
  refine ⟨?_, ?_, ?_⟩
  · cases hst : st.off <;> simp [add_event, hst]
  · cases hn : n.off <;> simp [get_due_reminders, hn]
  · intro hst
    simp [applyOp, add_event, hst]

/-- C7 witness: a naive `start_time` is rejected on a fresh store. -/
theorem C7_invalid_argument_iff_witness :
    add_event 10 "t" ⟨5, none⟩ 0 0 0 initState =
      .error (.invalidArgument "start_time must be timezone-aware") :=
  (C7_invalid_argument_iff 10 "t" ⟨5, none⟩ 0 0 0 initState ⟨5, none⟩).1.mpr rfl

/-- C10: every `Event` returned by `list_events`, `get_next_event`,
`get_event` or `get_due_reminders` carries timezone-aware `start_time` and
`remind_at` with UTC offset, because `_row_to_event` forces
`tzinfo = timezone.utc` on both fields. -/
theorem C10_results_utc_aware (s : DBState) (tg : Int) (rfil : Option Bool)
    (nowI : Int) (eid : Nat) (now : PyDateTime) (l : List Event) (ev : Event) :
    (ev ∈ list_events tg rfil s → UtcAware ev) ∧
    (get_next_event tg nowI s = some ev → UtcAware ev) ∧
    (get_event tg eid s = some ev → UtcAware ev) ∧
    (get_due_reminders now s = .ok l → ev ∈ l → UtcAware ev) := by
  refine ⟨?_, ?_, ?_, ?_⟩
  · intro hmem
    rcases List.mem_map.1 hmem with ⟨e, _, rfl⟩
    exact ⟨rfl, rfl⟩
  · intro h
    rcases Option.map_eq_some'.1 h with ⟨e, _, rfl⟩
    exact ⟨rfl, rfl⟩
  · intro h
    rcases Option.map_eq_some'.1 h with ⟨e, _, rfl⟩
    exact ⟨rfl, rfl⟩
  · intro hok hmem
    cases hn : now.off with
    | none => simp [get_due_reminders, hn] at hok
    | some o =>
      rw [get_due_reminders_aware now o hn s] at hok
      injection hok with hok
      subst hok
      rcases List.mem_filterMap.1 hmem with ⟨e, _, hfe⟩
      rcases howner : s.owner e with _ | u <;> rw [howner] at hfe
      · exact Option.noConfusion hfe
      · simp at hfe
        exact hfe.2 ▸ ⟨rfl, rfl⟩

/-- C10 witness: the lookup of event 1 in the sample store yields a
UTC-aware event. -/
theorem C10_results_utc_aware_witness : UtcAware (rowToEvent exRow1 (some 10)) :=
  (C10_results_utc_aware exC1s 10 none 0 1 ⟨0, some 0⟩ []
    (rowToEvent exRow1 (some 10))).2.2.1 rfl

theorem runCallbacks_all_ok {ε : Type} (cb : Event → Except ε Unit) (l : List Event)
    (h : ∀ e ∈ l, cb e = .ok ()) : runCallbacks cb l = (l, .ok ()) := by
  induction l with
  | nil => rfl
  | cons e t ih =>
    have he : cb e = .ok () := h e (List.mem_cons_self e t)
    simp [runCallbacks, he, ih (fun x hx => h x (List.mem_cons_of_mem e hx))]

theorem runCallbacks_first_error {ε : Type} (cb : Event → Except ε Unit)
    (l₁ : List Event) (e : Event) (x : ε) (l₂ : List Event)
    (h₁ : ∀ e' ∈ l₁, cb e' = .ok ()) (he : cb e = .error x) :
    runCallbacks cb (l₁ ++ e :: l₂) = (l₁ ++ [e], .error x) := by
  induction l₁ with
  | nil => simp [runCallbacks, he]
  | cons a t ih =>
    have ha : cb a = .ok () := h₁ a (List.mem_cons_self a t)
    simp [runCallbacks, ha, ih (fun y hy => h₁ y (List.mem_cons_of_mem a hy))]

/-- C1 (amended): the delivery loop of `dispatch_due` has no per-event
try/except.  When every callback succeeds, each fetched event is attempted in
order and `mark_reminded` is then called once with all fetched ids; but when
the callback raises on some due event, the sweep aborts there: the events
after it get no delivery attempt and `mark_reminded` is never called (the
exception escapes with the store unchanged). -/
theorem C1_sweep_failure_aborts {ε : Type} (cb : Event → Except ε Unit)
    (nowTs : Int) (s : DBState) (l : List Event)
    (hl : get_due_reminders ⟨nowTs, some 0⟩ s = .ok l) :
    ((∀ e ∈ l, cb e = .ok ()) →
      dispatch_due cb nowTs s = (l, .ok (mark_reminded (l.map (fun e => e.id)) s))) ∧
    (∀ l₁ e x l₂, l = l₁ ++ e :: l₂ → (∀ e' ∈ l₁, cb e' = .ok ()) →
      cb e = .error x →
      dispatch_due cb nowTs s = (l₁ ++ [e], .error (.delivery x))) := by
  constructor
  · intro hok
    cases l with
    | nil => simp [dispatch_due, hl, mark_reminded]
    | cons a t =>
      have hrun := runCallbacks_all_ok cb (a :: t) hok
      simp [dispatch_due, hl, hrun]
  · intro l₁ e x l₂ hsplit h₁ he
    subst hsplit
    have hrun := runCallbacks_first_error cb l₁ e x l₂ h₁ he
    simp [dispatch_due, hl, hrun]

/-- C1 witness: with an always-succeeding callback, the sweep over `exC1s`
attempts both due events and marks both ids. -/
theorem C1_sweep_failure_aborts_witness :
    dispatch_due cbOk 300 exC1s = (exDue1, .ok (mark_reminded [1, 2] exC1s)) :=
  (C1_sweep_failure_aborts cbOk 300 exC1s exDue1 rfl).1 (fun _ _ => rfl)

/-- C1 counterexample: both events of `exC1s` are due at `now = 300`, but
with a callback that raises on event 1 the sweep invokes the callback only on
event 1 — event 2 gets no delivery attempt — and the sweep errors out without
calling `mark_reminded`, contradicting the claim that one failure does not
prevent the remaining attempts and that `mark_reminded` is still called. -/
theorem C1_counterexample :
    (dispatch_due cbFail1 300 exC1s).1.map (fun e => e.id) = [1] ∧
    (dispatch_due cbFail1 300 exC1s).2 = .error (.delivery ()) :=
  ⟨rfl, rfl⟩

/-- C4 (amended): the sweep hands the due events to the callback exactly in
the order returned by the store; but `get_due_reminders` has no ORDER BY, so
that order is the events table's row (insertion) order, not ascending
`start_time`. -/
theorem C4_dispatch_store_order {ε : Type} (cb : Event → Except ε Unit)
    (nowTs : Int) (s : DBState) (hok : ∀ e, cb e = .ok ()) :
    ∃ l, get_due_reminders ⟨nowTs, some 0⟩ s = .ok l ∧
      (dispatch_due cb nowTs s).1 = l ∧
      l = s.events.filterMap (fun e =>
        match s.owner e with
        | some u =>
          if e.reminded == false && e.remind_at ≤ nowTs then
            some (rowToEvent e (some u.telegram_id))
          else none
        | none => none) := by
  have hl := get_due_reminders_aware ⟨nowTs, some 0⟩ 0 rfl s
  simp only [Int.sub_zero] at hl
  refine ⟨_, hl, ?_, rfl⟩
  suffices h : ∀ l, get_due_reminders ⟨nowTs, some 0⟩ s = .ok l →
      (dispatch_due cb nowTs s).1 = l from h _ hl
  intro l hl2
  cases l with
  | nil => simp [dispatch_due, hl2]
  | cons a t =>
    have hrun := runCallbacks_all_ok cb (a :: t) (fun e _ => hok e)
    simp [dispatch_due, hl2, hrun]

/-- C4 witness: on `exC1s` at `now = 300` the callback receives exactly the
store's returned list, which is the row-order filter of the events table. -/
theorem C4_dispatch_store_order_witness :
    ∃ l, get_due_reminders ⟨300, some 0⟩ exC1s = .ok l ∧
      (dispatch_due cbOk 300 exC1s).1 = l ∧
      l = exC1s.events.filterMap (fun e =>
        match exC1s.owner e with
        | some u =>
          if e.reminded == false && e.remind_at ≤ (300 : Int) then
            some (rowToEvent e (some u.telegram_id))
          else none
        | none => none) :=
  C4_dispatch_store_order cbOk 300 exC1s (fun _ => rfl)

/-- C4 counterexample: at `now = 300` the sweep over `exC1s` hands the two
due events to the callback with `start_time` 200 first and 50 second — the
delivery order is not ascending `start_time`, contradicting the claim that
the store returns the due events sorted ascending by `start_time`. -/
theorem C4_counterexample :
    (dispatch_due cbOk 300 exC1s).1.map (fun e => e.start_time.wall) = [200, 50] ∧
    ¬ List.Sorted (fun a b => a ≤ b)
        ((dispatch_due cbOk 300 exC1s).1.map (fun e => e.start_time.wall)) := by
  constructor
  · rfl
  · decide

/-- C3: for an aware `now`, `get_due_reminders` returns exactly the stored
events with `reminded = false` and `remind_at ≤ now` (UTC), across all users:
an event id appears in the result exactly when the store holds such a row
with that id. -/
theorem C3_due_set_exact (s : DBState) (hwf : WF s) (now : PyDateTime) (o : Int)
    (ho : now.off = some o) :
    ∃ l, get_due_reminders now s = .ok l ∧
      ∀ i : Nat,
        ((∃ ev ∈ l, ev.id = i) ↔
          ∃ e ∈ s.events, e.id = i ∧ e.reminded = false ∧
            e.remind_at ≤ now.wall - o) := by
  refine ⟨_, get_due_reminders_aware now o ho s, ?_⟩
  intro i
  constructor
  · rintro ⟨ev, hmem, rfl⟩
    rcases List.mem_filterMap.1 hmem with ⟨e, he, hfe⟩
    rcases howner : s.owner e with _ | u <;> rw [howner] at hfe
    · exact Option.noConfusion hfe
    · simp at hfe
      rcases hfe with ⟨⟨hrem, hle⟩, hev⟩
      exact ⟨e, he, by rw [← hev]; rfl, hrem, hle⟩
  · rintro ⟨e, he, hid, hrem, hle⟩
    have hsome : ∃ u', s.owner e = some u' := by
      rcases hwf.fk e he with ⟨u, hu, huid⟩
      have hiss : (s.users.find? (fun y => y.id == e.user_id)).isSome :=
        List.find?_isSome.2 ⟨u, hu, by simp [huid]⟩
      exact Option.isSome_iff_exists.1 hiss
    rcases hsome with ⟨u', hu'⟩
    refine ⟨rowToEvent e (some u'.telegram_id), ?_,
      (rfl : (rowToEvent e (some u'.telegram_id)).id = e.id).trans hid⟩
    exact List.mem_filterMap.2 ⟨e, he, by rw [hu']; simp [hrem, hle]⟩

/-- C3 witness: in `exC3s` at `now = 600`, the due set is exactly the events
due one minute ago and right now, excluding the future one and the
already-reminded one. -/
theorem C3_due_set_exact_witness :
    ∃ l, get_due_reminders ⟨600, some 0⟩ exC3s = .ok l ∧
      ∀ i : Nat,
        ((∃ ev ∈ l, ev.id = i) ↔
          ∃ e ∈ exC3s.events, e.id = i ∧ e.reminded = false ∧
            e.remind_at ≤ (600 : Int) - 0) :=
  C3_due_set_exact exC3s
    ⟨by decide, by decide, by decide, by decide, by decide, by decide⟩
    ⟨600, some 0⟩ 0 rfl

/-- C9: ownership isolation.  For an event owned by a user other than `A`,
`get_event A` returns absent and `delete_event A` leaves the store unchanged;
deleting any id that no event owned by `A` carries is a silent no-op. -/
theorem C9_ownership_isolation (s : DBState) (hwf : WF s) (A : Int)
    (uB : UserRow) (huB : uB ∈ s.users) (hBA : uB.telegram_id ≠ A)
    (e : EventRow) (he : e ∈ s.events) (hown : e.user_id = uB.id) :
    get_event A e.id s = none ∧
    delete_event A e.id s = s ∧
    ∀ eid : Nat,
      (∀ e' ∈ s.events, e'.id = eid →
        ∀ u ∈ s.users, u.id = e'.user_id → u.telegram_id ≠ A) →
      delete_event A eid s = s := by
  have key : ∀ eid : Nat,
      (∀ e' ∈ s.events, e'.id = eid →
        ∀ u ∈ s.users, u.id = e'.user_id → u.telegram_id ≠ A) →
      s.events.find? (fun x =>
        match s.owner x with
        | some u => u.telegram_id == A && x.id == eid
        | none => false) = none := by
    intro eid H
    apply List.find?_eq_none.2
    intro x hx
    rcases howner : s.owner x with _ | u
    · simp
    · have howner' : s.users.find? (fun y => y.id == x.user_id) = some u := howner
      have hu_mem : u ∈ s.users := List.mem_of_find?_eq_some howner'
      have hu_id := List.find?_some howner'
      by_cases hid : x.id = eid
      · have hne := H x hx hid u hu_mem (by simpa using hu_id)
        simp [hne]
      · simp [hid]
  have hkey : ∀ e' ∈ s.events, e'.id = e.id →
      ∀ u ∈ s.users, u.id = e'.user_id → u.telegram_id ≠ A := by
    intro e' he' hid u hu huid
    have he'e : e' = e :=
      List.inj_on_of_nodup_map hwf.eventIdsNodup he' he hid
    subst he'e
    have huuB : u = uB :=
      List.inj_on_of_nodup_map hwf.userIdsNodup hu huB (by rw [huid, hown])
    subst huuB
    exact hBA
  refine ⟨?_, ?_, ?_⟩
  · simp [get_event, key e.id hkey]
  · simp [delete_event, key e.id hkey]
  · intro eid H
    simp [delete_event, key eid H]

/-- C9 witness: user 10 cannot see nor delete user 20's event 1 in `exC9s`,
and deleting the nonexistent id 5 is a no-op. -/
theorem C9_ownership_isolation_witness :
    get_event 10 1 exC9s = none ∧ delete_event 10 1 exC9s = exC9s ∧
    delete_event 10 5 exC9s = exC9s := by
  have h := C9_ownership_isolation exC9s
    ⟨by decide, by decide, by decide, by decide, by decide, by decide⟩
    10 user20 (by decide) (by decide) exRowB (by decide) rfl
  exact ⟨h.1, h.2.1, h.2.2 5 (by decide)⟩

/-- Looking up a freshly appended event row: every pre-existing row has a
smaller id, and the new row's owner matches the requested `telegram_id`, so
the ownership-scoped `get_event` finds exactly the new row. -/
theorem get_event_append_fresh (users : List UserRow) (events : List EventRow)
    (nU nE : Nat) (tg : Int) (row : EventRow) (u : UserRow)
    (hlow : ∀ x ∈ events, x.id < nE) (hrowid : row.id = nE)
    (howner : (DBState.mk users (events ++ [row]) nU (nE + 1)).owner row = some u)
    (hutg : (u.telegram_id == tg) = true) :
    get_event tg row.id (DBState.mk users (events ++ [row]) nU (nE + 1)) =
      some (rowToEvent row (some tg)) := by
  unfold get_event
  have hfalse : ∀ x ∈ events,
      (match (DBState.mk users (events ++ [row]) nU (nE + 1)).owner x with
        | some u => u.telegram_id == tg && x.id == row.id
        | none => false) = false := by
    intro x hx
    have hne : (x.id == row.id) = false := by
      rw [hrowid]
      simp [Nat.ne_of_lt (hlow x hx)]
    rcases h2 : (DBState.mk users (events ++ [row]) nU (nE + 1)).owner x with _ | u2
    · rfl
    · simp [hne]
  show ((events ++ [row]).find? (fun x =>
      match (DBState.mk users (events ++ [row]) nU (nE + 1)).owner x with
      | some u => u.telegram_id == tg && x.id == row.id
      | none => false)).map (fun e => rowToEvent e (some tg)) =
    some (rowToEvent row (some tg))
  rw [find?_append_of_left_false _ events [row] hfalse]
  rw [List.find?_cons_of_pos _ (by rw [howner]; simp [hutg])]
  rfl

/-- C6: for an aware `start_time` and any `remind_before`, `add_event`
followed by `get_event` on the returned id yields an event whose
`start_time` is the input converted to UTC and whose `remind_at` is exactly
`start_time` minus `remind_before` minutes. -/
theorem C6_roundtrip (s : DBState) (hwf : WF s) (tg : Int) (title : String)
    (st : PyDateTime) (o : Int) (ho : st.off = some o) (dur rb now : Int) :
    ∃ eid s', add_event tg title st dur rb now s = .ok (eid, s') ∧
      ∃ ev, get_event tg eid s' = some ev ∧
        ev.start_time = ⟨st.wall - o, some 0⟩ ∧
        ev.remind_at = ⟨st.wall - o - 60 * rb, some 0⟩ ∧
        ev.remind_at.wall = ev.start_time.wall - 60 * rb := by
  obtain ⟨w, stoff⟩ := st
  cases ho
  have hens : (ensure_user tg now s).2.events = s.events ∧
      (ensure_user tg now s).2.nextEventId = s.nextEventId ∧
      ∃ u, (ensure_user tg now s).2.findUserById (ensure_user tg now s).1 = some u ∧
        (u.telegram_id == tg) = true := by
    unfold ensure_user
    cases hfind : s.findUserByTg tg with
    | some u0 =>
      have hfind' : s.users.find? (fun y => y.telegram_id == tg) = some u0 := hfind
      exact ⟨rfl, rfl, u0,
        findUserById_eq_self s hwf.userIdsNodup u0 (List.mem_of_find?_eq_some hfind'),
        by simpa using List.find?_some hfind'⟩
    | none =>
      refine ⟨rfl, rfl, (⟨s.nextUserId, tg, "UTC", 15, now⟩ : UserRow), ?_, by simp⟩
      show (s.users ++ [(⟨s.nextUserId, tg, "UTC", 15, now⟩ : UserRow)]).find?
          (fun y => y.id == s.nextUserId) =
        some (⟨s.nextUserId, tg, "UTC", 15, now⟩ : UserRow)
      rw [find?_append_of_left_false _ s.users _ (fun x hx => by
        simp [Nat.ne_of_lt (hwf.userIdsLt x hx)])]
      exact List.find?_cons_of_pos _ (by simp)
  obtain ⟨hev, hnid, u, hu, hutg⟩ := hens
  refine ⟨(ensure_user tg now s).2.nextEventId, _, rfl, ?_⟩
  refine ⟨rowToEvent ⟨(ensure_user tg now s).2.nextEventId, (ensure_user tg now s).1,
      title, w - o, dur, rb, w - o - 60 * rb, false, now⟩ (some tg), ?_, rfl, rfl, rfl⟩
  have hlow : ∀ x ∈ (ensure_user tg now s).2.events,
      x.id < (ensure_user tg now s).2.nextEventId := by
    rw [hev, hnid]
    exact hwf.eventIdsLt
  exact get_event_append_fresh (ensure_user tg now s).2.users
    (ensure_user tg now s).2.events (ensure_user tg now s).2.nextUserId
    (ensure_user tg now s).2.nextEventId tg
    ⟨(ensure_user tg now s).2.nextEventId, (ensure_user tg now s).1,
      title, w - o, dur, rb, w - o - 60 * rb, false, now⟩ u hlow rfl hu hutg

/-- C6 witness: adding an event at wall clock 100 with offset +60 s and
`remind_before = 15` to a fresh store stores `start_time = 40` UTC and
`remind_at = 40 - 900`. -/
theorem C6_roundtrip_witness :
    ∃ eid s', add_event 10 "t" ⟨100, some 60⟩ 30 15 0 initState = .ok (eid, s') ∧
      ∃ ev, get_event 10 eid s' = some ev ∧
        ev.start_time = ⟨(100 : Int) - 60, some 0⟩ ∧
        ev.remind_at = ⟨(100 : Int) - 60 - 60 * 15, some 0⟩ ∧
        ev.remind_at.wall = ev.start_time.wall - 60 * 15 :=
  C6_roundtrip initState
    ⟨by decide, by decide, by decide, by decide, by decide, by decide⟩
    10 "t" ⟨100, some 60⟩ 60 rfl 30 15 0

theorem find?_filter_of_imp {α : Type} (p q : α → Bool) (l : List α)
    (h : ∀ x, p x = true → q x = true) : (l.filter q).find? p = l.find? p := by
  induction l with
  | nil => rfl
  | cons a t ih =>
    cases hq : q a with
    | true =>
      rw [List.filter_cons_of_pos hq]
      cases hp : p a with
      | true => rw [List.find?_cons_of_pos _ hp, List.find?_cons_of_pos _ hp]
      | false =>
        rw [List.find?_cons_of_neg _ (by simp [hp]),
          List.find?_cons_of_neg _ (by simp [hp])]
        exact ih
    | false =>
      have hp : p a = false := by
        cases hpa : p a with
        | true => exact absurd (h a hpa) (by simp [hq])
        | false => rfl
      rw [List.filter_cons_of_neg (by simp [hq]), ih,
        List.find?_cons_of_neg _ (by simp [hp])]

theorem find?_append_of_right_false {α : Type} (p : α → Bool) (l₁ l₂ : List α)
    (h : ∀ x ∈ l₂, p x = false) : (l₁ ++ l₂).find? p = l₁.find? p := by
  have h2 : l₂.find? p = none := List.find?_eq_none.mpr (fun x hx => by simp [h x hx])
  rw [List.find?_append, h2]
  cases l₁.find? p <;> rfl

/-- After a successful `add_event`, looking up any id below the previous
`AUTOINCREMENT` counter is unchanged (the fresh row has a strictly larger
id), and the counter advanced by one. -/
theorem findEvent_add_event (tg : Int) (title : String) (st : PyDateTime) (o : Int)
    (ho : st.off = some o) (dur rb now : Int) (s : DBState) (eid : Nat)
    (hlt : eid < s.nextEventId) (eidR : Nat) (s' : DBState)
    (hok : add_event tg title st dur rb now s = .ok (eidR, s')) :
    s'.findEvent eid = s.findEvent eid ∧ s'.nextEventId = s.nextEventId + 1 := by
  obtain ⟨w, stoff⟩ := st
  cases ho
  have hev2 : (ensure_user tg now s).2.events = s.events := by
    unfold ensure_user
    cases s.findUserByTg tg <;> rfl
  have hni2 : (ensure_user tg now s).2.nextEventId = s.nextEventId := by
    unfold ensure_user
    cases s.findUserByTg tg <;> rfl
  simp only [add_event] at hok
  injection hok with h1
  injection h1 with h1a h1b
  subst h1b
  constructor
  · unfold DBState.findEvent
    dsimp only
    rw [find?_append_of_right_false _ _ _ ?hr, hev2]
    case hr =>
      intro x hx
      rw [List.mem_singleton] at hx
      subst hx
      have hne : eid ≠ (ensure_user tg now s).2.nextEventId := by
        rw [hni2]
        exact Nat.ne_of_lt hlt
      simp [Ne.symm hne]
  · show (ensure_user tg now s).2.nextEventId + 1 = s.nextEventId + 1
    rw [hni2]

/-- One store operation preserves both "the id is below the event counter"
and "whatever row that id resolves to is reminded". -/
theorem reminded_monotone_step (op : StoreOp) (s : DBState) (eid : Nat)
    (hlt : eid < s.nextEventId)
    (h : ∀ e, s.findEvent eid = some e → e.reminded = true) :
    eid < (applyOp s op).nextEventId ∧
      ∀ e', (applyOp s op).findEvent eid = some e' → e'.reminded = true := by
  cases op with
  | ensureUser tg now =>
    have happ : applyOp s (.ensureUser tg now) = (ensure_user tg now s).2 := rfl
    have hev : (ensure_user tg now s).2.events = s.events := by
      unfold ensure_user
      cases s.findUserByTg tg <;> rfl
    have hni : (ensure_user tg now s).2.nextEventId = s.nextEventId := by
      unfold ensure_user
      cases s.findUserByTg tg <;> rfl
    rw [happ]
    constructor
    · rw [hni]; exact hlt
    · intro e' he'
      have heq : (ensure_user tg now s).2.findEvent eid = s.findEvent eid := by
        unfold DBState.findEvent
        rw [hev]
      rw [heq] at he'
      exact h e' he'
  | updateUser tg tz rd =>
    have happ : applyOp s (.updateUser tg tz rd) = update_user tg tz rd s := rfl
    have hev : (update_user tg tz rd s).events = s.events := by
      unfold update_user
      split <;> rfl
    have hni : (update_user tg tz rd s).nextEventId = s.nextEventId := by
      unfold update_user
      split <;> rfl
    rw [happ]
    constructor
    · rw [hni]; exact hlt
    · intro e' he'
      have heq : (update_user tg tz rd s).findEvent eid = s.findEvent eid := by
        unfold DBState.findEvent
        rw [hev]
      rw [heq] at he'
      exact h e' he'
  | addEvent tg title st dur rb now =>
    cases hoff : st.off with
    | none =>
      have hid : applyOp s (.addEvent tg title st dur rb now) = s := by
        simp [applyOp, add_event, hoff]
      rw [hid]
      exact ⟨hlt, h⟩
    | some o =>
      cases hok : add_event tg title st dur rb now s with
      | error err =>
        have hid : applyOp s (.addEvent tg title st dur rb now) = s := by
          simp [applyOp, hok]
        rw [hid]
        exact ⟨hlt, h⟩
      | ok pr =>
        obtain ⟨eidR, s2⟩ := pr
        have hfe := findEvent_add_event tg title st o hoff dur rb now s eid hlt eidR s2 hok
        have hid : applyOp s (.addEvent tg title st dur rb now) = s2 := by
          simp [applyOp, hok]
        rw [hid]
        constructor
        · rw [hfe.2]
          exact Nat.lt_succ_of_lt hlt
        · intro e' he'
          rw [hfe.1] at he'
          exact h e' he'
  | deleteEvent tg eid2 =>
    have happ : applyOp s (.deleteEvent tg eid2) = delete_event tg eid2 s := rfl
    have hni : (delete_event tg eid2 s).nextEventId = s.nextEventId := by
      unfold delete_event
      split <;> rfl
    rw [happ]
    constructor
    · rw [hni]; exact hlt
    · intro e' he'
      unfold delete_event at he'
      split at he'
      · exact h e' he'
      · rename_i e0 hfound
        unfold DBState.findEvent at he'
        dsimp only at he'
        by_cases hcase : e0.id = eid
        · exfalso
          have hnone : (s.events.filter (fun x => x.id != e0.id)).find?
              (fun x => x.id == eid) = none := by
            apply List.find?_eq_none.2
            intro x hx
            have hxne := (List.mem_filter.1 hx).2
            simp only [bne_iff_ne, ne_eq] at hxne
            simp [hcase ▸ hxne]
          rw [hnone] at he'
          exact Option.noConfusion he'
        · have heq := find?_filter_of_imp (fun x => x.id == eid)
            (fun x => x.id != e0.id) s.events (fun x hpx => by
              have hxid : x.id = eid := by simpa using hpx
              simp [hxid, Ne.symm hcase])
          rw [heq] at he'
          exact h e' he'
  | markReminded ids =>
    have happ : applyOp s (.markReminded ids) = mark_reminded ids s := rfl
    have hni : (mark_reminded ids s).nextEventId = s.nextEventId := by
      unfold mark_reminded
      split <;> rfl
    rw [happ]
    constructor
    · rw [hni]; exact hlt
    · intro e' he'
      unfold mark_reminded at he'
      split at he'
      · exact h e' he'
      · unfold DBState.findEvent at he'
        dsimp only at he'
        rw [List.find?_map] at he'
        have hpf : ((fun x : EventRow => x.id == eid) ∘
            (fun e => if e.id ∈ ids then { e with reminded := true } else e)) =
            fun x : EventRow => x.id == eid := by
          funext x
          by_cases hx : x.id ∈ ids <;> simp [Function.comp, hx]
        rw [hpf] at he'
        obtain ⟨e0, hf0, hfe0⟩ := Option.map_eq_some'.1 he'
        have hrem0 := h e0 hf0
        rw [← hfe0]
        by_cases hx : e0.id ∈ ids <;> simp [hx, hrem0]

theorem reminded_monotone_inv (ops : List StoreOp) :
    ∀ s : DBState, ∀ eid : Nat, eid < s.nextEventId →
      (∀ e, s.findEvent eid = some e → e.reminded = true) →
      eid < (applyOps s ops).nextEventId ∧
        ∀ e', (applyOps s ops).findEvent eid = some e' → e'.reminded = true := by
  induction ops with
  | nil => exact fun s eid hlt h => ⟨hlt, h⟩
  | cons op rest ih =>
    intro s eid hlt h
    have hstep := reminded_monotone_step op s eid hlt h
    exact ih (applyOp s op) eid hstep.1 hstep.2

/-- C8: the `reminded` flag is monotone.  In a well-formed store, if the
event with a given id is reminded, then after any sequence of store
operations (`ensure_user`, `update_user`, `add_event`, `delete_event`,
`mark_reminded`) whatever event that id still resolves to is reminded — no
operation reverts the flag to false. -/
theorem C8_reminded_monotone (s : DBState) (hwf : WF s) (ops : List StoreOp)
    (eid : Nat) (e : EventRow) (hs : s.findEvent eid = some e)
    (hrem : e.reminded = true) (e' : EventRow)
    (h' : (applyOps s ops).findEvent eid = some e') : e'.reminded = true := by
  have hs' : s.events.find? (fun x => x.id == eid) = some e := hs
  have hlt : eid < s.nextEventId := by
    have hmem := List.mem_of_find?_eq_some hs'
    have hid : e.id = eid := by simpa using List.find?_some hs'
    rw [← hid]
    exact hwf.eventIdsLt e hmem
  have hinv := reminded_monotone_inv ops s eid hlt (fun e0 he0 => by
    rw [hs] at he0
    cases he0
    exact hrem)
  exact hinv.2 e' h'

/-- C8 witness: event 1 of `exC8s` is reminded; after marking event 2 and
deleting it, event 1 still resolves and is still reminded. -/
theorem C8_reminded_monotone_witness :
    ∃ r, (applyOps exC8s exC8ops).findEvent 1 = some r ∧ r.reminded = true :=
  ⟨exRow8, rfl, C8_reminded_monotone exC8s
    ⟨by decide, by decide, by decide, by decide, by decide, by decide⟩
    exC8ops 1 exRow8 rfl rfl exRow8 rfl⟩

end Bot
